import Mathlib

/-!
Verification of the AI Tutoring Assistant (ai_tutoring_assistant.py, api.py)
against its natural-language specification.

The Python source is shallowly embedded: pure functions become Lean
functions, in-place dictionary mutation becomes explicit state passing,
`datetime.now()` and the text-generation service become explicit input
parameters, and code that can raise an exception returns an `Option`
(`none` = an exception escaped).  Python `float` arithmetic is modelled by
exact rationals (`Rat`), built through `mkRat` so that concrete values
reduce in the kernel; the float expressions of the source are exact at
every value the program manipulates here (small counters, scores).
Python string operations (`lower`, `strip`, `in`) are modelled on
`List Char` for the ASCII range used by the program.
-/

-- ===========================================================================
-- Python string primitives
-- ===========================================================================

/-- Python's default whitespace set for `str.strip()` (ASCII part). -/
def pyWhitespace (c : Char) : Bool :=
  c == ' ' || c == '\t' || c == '\n' || c == '\r' || c == '\x0b' || c == '\x0c'

/-- Python `str.strip()`: drop leading and trailing whitespace. -/
def pyStrip (cs : List Char) : List Char :=
  ((cs.dropWhile pyWhitespace).reverse.dropWhile pyWhitespace).reverse

/-- Python `str.lower()` (ASCII model: `A`-`Z` mapped to `a`-`z`). -/
def pyLower (cs : List Char) : List Char :=
  cs.map Char.toLower

/-- Needle is a prefix of the haystack. -/
def isPrefOf : List Char → List Char → Bool
  | [], _ => true
  | _ :: _, [] => false
  | a :: as, b :: bs => a == b && isPrefOf as bs

/-- Python's substring test `needle in hay`. -/
def containsSub (hay needle : List Char) : Bool :=
  if isPrefOf needle hay then true
  else
    match hay with
    | [] => false
    | _ :: t => containsSub t needle

-- ===========================================================================
-- Python dictionaries (string-keyed, insertion-ordered)
-- ===========================================================================

/-- Python `d[k]` lookup (also `k in d`): first entry with the key. -/
def dictGet {α : Type} : List (String × α) → String → Option α
  | [], _ => none
  | (k, v) :: rest, key => if k = key then some v else dictGet rest key

/-- Python `d.get(k, default)`. -/
def dictGetD {α : Type} (d : List (String × α)) (key : String) (default : α) : α :=
  (dictGet d key).getD default

/-- Python `d[k] = v`: overwrite in place if the key is present (keeping its
position), otherwise append at the end. -/
def dictSet {α : Type} : List (String × α) → String → α → List (String × α)
  | [], key, v => [(key, v)]
  | (k, w) :: rest, key, v =>
    if k = key then (k, v) :: rest else (k, w) :: dictSet rest key v

/-- Keys of a Python dictionary, in order. -/
def dictKeys {α : Type} (d : List (String × α)) : List String :=
  d.map Prod.fst

-- ===========================================================================
-- JSON values (the fragment reachable through `json.loads` here)
-- ===========================================================================

/-- A parsed JSON value, as Python's `json.loads` produces it (numbers are
modelled by exact rationals). -/
inductive JVal where
  | null
  | bool (b : Bool)
  | num (q : Rat)
  | str (s : String)
  | arr (xs : List JVal)
  | obj (fields : List (String × JVal))

/-- Python truthiness `bool(x)` of a value produced by `json.loads`. -/
def pyBool : JVal → Bool
  | .null => false
  | .bool b => b
  | .num q => if q = 0 then false else true
  | .str s => if s = "" then false else true
  | .arr xs => !xs.isEmpty
  | .obj fs => !fs.isEmpty

/-- Rational value of a decimal literal: `sign * M * 10^(e-f)` where `M` is
the mantissa read as an integer and `f` the number of fraction digits. -/
def decimalToRat (neg : Bool) (mantissa : Nat) (fracDigits : Nat) (exp : Int) : Rat :=
  let e : Int := exp - (fracDigits : Int)
  let n : Int := (if neg then -(mantissa : Int) else (mantissa : Int))
  if 0 ≤ e then mkRat (n * ((10 ^ e.toNat : Nat) : Int)) 1
  else mkRat n (10 ^ (-e).toNat)

/-- One decimal digit. -/
def digitVal (c : Char) : Option Nat :=
  if '0' ≤ c ∧ c ≤ '9' then some (c.toNat - '0'.toNat) else none

/-- Longest run of decimal digits: returns its value, its length, and the
rest of the input. -/
def takeDigits : List Char → Nat → Nat → (Nat × Nat × List Char)
  | [], acc, len => (acc, len, [])
  | c :: rest, acc, len =>
    match digitVal c with
    | some d => takeDigits rest (acc * 10 + d) (len + 1)
    | none => (acc, len, c :: rest)

-- ===========================================================================
-- JSON parsing (Python `json.loads`, restricted to what the regex can feed it)
-- ===========================================================================

/-- JSON structural whitespace. -/
def jsonWs (c : Char) : Bool :=
  c == ' ' || c == '\t' || c == '\n' || c == '\r'

/-- Skip JSON whitespace. -/
def skipWs (cs : List Char) : List Char :=
  cs.dropWhile jsonWs

/-- Hex digit value, for `\\uXXXX` escapes. -/
def hexVal (c : Char) : Option Nat :=
  if '0' ≤ c ∧ c ≤ '9' then some (c.toNat - '0'.toNat)
  else if 'a' ≤ c ∧ c ≤ 'f' then some (c.toNat - 'a'.toNat + 10)
  else if 'A' ≤ c ∧ c ≤ 'F' then some (c.toNat - 'A'.toNat + 10)
  else none

/-- Body of a JSON string after the opening quote.  Control characters are
rejected (Python's strict mode); escapes are decoded (`\\uXXXX` to the code
point; surrogate-pair recombination is not modelled). -/
def parseStringBody : Nat → List Char → Option (List Char × List Char)
  | 0, _ => none
  | _, [] => none
  | fuel + 1, c :: rest =>
    if c = '"' then some ([], rest)
    else if c = '\\' then
      match rest with
      | [] => none
      | e :: rest2 =>
        let cont (ch : Char) (rem : List Char) : Option (List Char × List Char) :=
          match parseStringBody fuel rem with
          | some (s, r) => some (ch :: s, r)
          | none => none
        if e = '"' then cont '"' rest2
        else if e = '\\' then cont '\\' rest2
        else if e = '/' then cont '/' rest2
        else if e = 'b' then cont '\x08' rest2
        else if e = 'f' then cont '\x0c' rest2
        else if e = 'n' then cont '\n' rest2
        else if e = 'r' then cont '\r' rest2
        else if e = 't' then cont '\t' rest2
        else if e = 'u' then
          match rest2 with
          | h1 :: h2 :: h3 :: h4 :: rest3 =>
            match hexVal h1, hexVal h2, hexVal h3, hexVal h4 with
            | some a, some b, some c3, some d =>
              cont (Char.ofNat (((a * 16 + b) * 16 + c3) * 16 + d)) rest3
            | _, _, _, _ => none
          | _ => none
        else none
    else if c.toNat < 0x20 then none
    else
      match parseStringBody fuel rest with
      | some (s, r) => some (c :: s, r)
      | none => none

/-- A JSON number: `-? int frac? exp?` with `int = 0 | [1-9][0-9]*`. -/
def parseNumber (cs : List Char) : Option (Rat × List Char) :=
  let (neg, cs1) : Bool × List Char :=
    match cs with
    | '-' :: rest => (true, rest)
    | _ => (false, cs)
  match cs1 with
  | [] => none
  | c :: _ =>
    match digitVal c with
    | none => none
    | some _ =>
      let (intPart, intLen, cs2) := takeDigits cs1 0 0
      -- leading zeros are illegal in JSON: "0" is fine, "05" is not
      if intLen > 1 ∧ c = '0' then none
      else
        let (mant1, frac1, cs3) : Nat × Nat × List Char :=
          match cs2 with
          | '.' :: d :: rest =>
            match digitVal d with
            | some _ =>
              let (fv, fl, r) := takeDigits (d :: rest) 0 0
              (intPart * 10 ^ fl + fv, fl, r)
            | none => (intPart, 0, '.' :: d :: rest)
          | _ => (intPart, 0, cs2)
        -- a bare trailing dot is illegal in JSON
        match cs3 with
        | '.' :: _ => none
        | _ =>
          let (exp, cs4) : Option Int × List Char :=
            match cs3 with
            | e :: rest =>
              if e = 'e' ∨ e = 'E' then
                let (esign, rest2) : Bool × List Char :=
                  match rest with
                  | '+' :: r => (false, r)
                  | '-' :: r => (true, r)
                  | _ => (false, rest)
                match rest2 with
                | d :: _ =>
                  match digitVal d with
                  | some _ =>
                    let (ev, _, r) := takeDigits rest2 0 0
                    (some (if esign then -(ev : Int) else (ev : Int)), r)
                  | none => (none, e :: rest)
                | [] => (none, e :: rest)
              else (none, e :: rest)
            | [] => (none, [])
          match exp, cs3 with
          | none, e :: _ =>
            if e = 'e' ∨ e = 'E' then none
            else some (decimalToRat neg mant1 frac1 0, cs3)
          | none, [] => some (decimalToRat neg mant1 frac1 0, [])
          | some ev, _ => some (decimalToRat neg mant1 frac1 ev, cs4)

/-- Expect a literal keyword. -/
def expectLit : List Char → List Char → Option (List Char)
  | [], rest => some rest
  | c :: cs, d :: rest => if c = d then expectLit cs rest else none
  | _ :: _, [] => none

/-- Build a Python `dict` from the member list of a JSON object: the first
occurrence of a key fixes its position, the last occurrence fixes its value
(Python `dict` semantics for duplicate keys). -/
def objOfMembers (fs : List (String × JVal)) : List (String × JVal) :=
  fs.foldl (fun acc kv => dictSet acc kv.1 kv.2) []

mutual

/-- Parse one JSON value (no surrounding whitespace). -/
def parseValue : Nat → List Char → Option (JVal × List Char)
  | 0, _ => none
  | _, [] => none
  | fuel + 1, c :: rest =>
    if c = '"' then
      match parseStringBody (rest.length + 1) rest with
      | some (s, r) => some (.str (String.mk s), r)
      | none => none
    else if c = 't' then
      (expectLit ['r', 'u', 'e'] rest).map (fun r => (.bool true, r))
    else if c = 'f' then
      (expectLit ['a', 'l', 's', 'e'] rest).map (fun r => (.bool false, r))
    else if c = 'n' then
      (expectLit ['u', 'l', 'l'] rest).map (fun r => (.null, r))
    else if c = '[' then
      let rest1 := skipWs rest
      match rest1 with
      | ']' :: r => some (.arr [], r)
      | _ =>
        match parseElements fuel rest1 with
        | some (xs, r) => some (.arr xs, r)
        | none => none
    else if c = '{' then
      let rest1 := skipWs rest
      match rest1 with
      | '}' :: r => some (.obj [], r)
      | _ =>
        match parseMembers fuel rest1 with
        | some (fs, r) => some (.obj (objOfMembers fs), r)
        | none => none
    else
      match parseNumber (c :: rest) with
      | some (q, r) => some (.num q, r)
      | none => none

/-- Parse the elements of a non-empty JSON array (after `[` and leading
whitespace), up to and including the closing `]`. -/
def parseElements : Nat → List Char → Option (List JVal × List Char)
  | 0, _ => none
  | fuel + 1, cs =>
    match parseValue fuel cs with
    | none => none
    | some (v, r) =>
      match skipWs r with
      | ',' :: r2 =>
        match parseElements fuel (skipWs r2) with
        | some (xs, r3) => some (v :: xs, r3)
        | none => none
      | ']' :: r2 => some ([v], r2)
      | _ => none

/-- Parse the members of a non-empty JSON object (after `{` and leading
whitespace), up to and including the closing brace.  Duplicate keys follow
Python `dict` semantics: the last occurrence wins. -/
def parseMembers : Nat → List Char → Option (List (String × JVal) × List Char)
  | 0, _ => none
  | fuel + 1, cs =>
    match cs with
    | '"' :: rest =>
      match parseStringBody (rest.length + 1) rest with
      | none => none
      | some (k, r) =>
        match skipWs r with
        | ':' :: r2 =>
          match parseValue fuel (skipWs r2) with
          | none => none
          | some (v, r3) =>
            match skipWs r3 with
            | ',' :: r4 =>
              match parseMembers fuel (skipWs r4) with
              | some (fs, r5) => some ((String.mk k, v) :: fs, r5)
              | none => none
            | '}' :: r4 => some ([(String.mk k, v)], r4)
            | _ => none
        | _ => none
    | _ => none

end

/-- Python `json.loads` on a whole string: optional whitespace, one value,
optional whitespace, end of input. -/
def jsonLoads (cs : List Char) : Option JVal :=
  match parseValue (cs.length + 1) (skipWs cs) with
  | some (v, r) => if skipWs r = [] then some v else none
  | none => none

-- ===========================================================================
-- Regex JSON extraction (re.search of a brace, non-braces, brace)
-- ===========================================================================

/-- Attempt the pattern starting just after an opening brace: greedily take
characters that are not braces; succeed exactly when the first brace hit is a
closing one, returning the inner run. -/
def matchBrace : List Char → Option (List Char)
  | [] => none
  | c :: rest =>
    if c = '}' then some []
    else if c = '{' then none
    else (matchBrace rest).map (fun inner => c :: inner)

/-- The source's `re.search` for a brace-delimited, brace-free substring:
the match starts at the first opening brace whose next brace is a closing
one, and extends to that closing brace. -/
def findJson : List Char → Option (List Char)
  | [] => none
  | c :: rest =>
    if c = '{' then
      match matchBrace rest with
      | some inner => some ('{' :: (inner ++ ['}']))
      | none => findJson rest
    else findJson rest

-- ===========================================================================
-- Python float() and str() on JSON values
-- ===========================================================================

/-- A run of decimal digits possibly containing single underscores between
digits (PEP 515), as accepted inside the argument of Python `float(str)`.
Returns the value, the digit count, and the rest. -/
def takeDigitsU : Nat → List Char → Nat → Nat → Option (Nat × Nat × List Char)
  | 0, _, _, _ => none
  | _, [], acc, len => some (acc, len, [])
  | fuel + 1, c :: rest, acc, len =>
    match digitVal c with
    | some d => takeDigitsU fuel rest (acc * 10 + d) (len + 1)
    | none =>
      if c = '_' then
        match rest with
        | d :: rest2 =>
          match digitVal d with
          | some dv => takeDigitsU fuel rest2 (acc * 10 + dv) (len + 1)
          | none => none
        | [] => none
      else some (acc, len, c :: rest)

/-- The numeric body of a Python float literal (after sign removal):
`digits [. digits?] | . digits`, then an optional exponent.  Yields the
value as an exact rational.  The non-finite literals `inf`, `infinity` and
`nan`, which Python `float` accepts, are outside this rational model and
are treated as unrepresentable (`none`). -/
def parsePyFloatBody (cs : List Char) : Option Rat :=
  let fuel := cs.length + 1
  let intRes : Option (Nat × Nat × List Char) := takeDigitsU fuel cs 0 0
  match intRes with
  | none => none
  | some (iv, il, rest) =>
    let fracRes : Option (Nat × Nat × List Char) :=
      match rest with
      | '.' :: r => takeDigitsU fuel r 0 0
      | _ => some (0, 0, rest)
    match fracRes with
    | none => none
    | some (fv, fl, rest2) =>
      if il = 0 ∧ fl = 0 then none
      else
        let mant := iv * 10 ^ fl + fv
        match rest2 with
        | [] => some (decimalToRat false mant fl 0)
        | e :: r =>
          if e = 'e' ∨ e = 'E' then
            let (esign, r2) : Bool × List Char :=
              match r with
              | '+' :: rr => (false, rr)
              | '-' :: rr => (true, rr)
              | _ => (false, r)
            match takeDigitsU fuel r2 0 0 with
            | some (ev, el, []) =>
              if el = 0 then none
              else some (decimalToRat false mant fl (if esign then -(ev : Int) else (ev : Int)))
            | _ => none
          else none

/-- Python `float(s)` on a string: strip whitespace, optional sign, numeric
body consuming all remaining characters.  `none` models a raised
`ValueError` (or a non-finite result, see `parsePyFloatBody`). -/
def pyFloatOfString (s : String) : Option Rat :=
  let cs := pyStrip s.toList
  let (neg, cs1) : Bool × List Char :=
    match cs with
    | '-' :: r => (true, r)
    | '+' :: r => (false, r)
    | _ => (false, cs)
  match parsePyFloatBody cs1 with
  | some q => some (if neg then -q else q)
  | none => none

/-- Python `float(x)` on a value produced by `json.loads`: numbers and
booleans convert, strings are parsed, `None`, lists and dicts raise
`TypeError` (`none`). -/
def pyFloat : JVal → Option Rat
  | .num q => some q
  | .bool b => some (if b then 1 else 0)
  | .str s => pyFloatOfString s
  | .null => none
  | .arr _ => none
  | .obj _ => none

/-- Python `str(x)` on a value produced by `json.loads`, used when feedback
text is interpolated into the conversation log.  Only the string case is
observable by the claims; the numeric and container renderings are
approximate. -/
def pyStr : JVal → String
  | .str s => s
  | .bool b => if b then "True" else "False"
  | .null => "None"
  | .num q => toString q.num ++ (if q.den = 1 then ".0" else "/" ++ toString q.den)
  | .arr _ => "[...]"
  | .obj _ => "\x7b...\x7d"

/-- Python `s.replace(old, new)` with `new = ""`: delete every left-to-right
non-overlapping occurrence of `old`. -/
def pyDeleteSub (fuel : Nat) (hay needle : List Char) : List Char :=
  match fuel, hay with
  | 0, h => h
  | _, [] => []
  | fuel + 1, c :: t =>
    if needle ≠ [] ∧ isPrefOf needle (c :: t) then
      pyDeleteSub fuel (List.drop needle.length (c :: t)) needle
    else c :: pyDeleteSub fuel t needle

-- ===========================================================================
-- TutoringLLM.evaluate_answer (the Answer Evaluator)
-- ===========================================================================

/-- The fallback evaluation dictionary the source synthesizes when no JSON
substring is found or JSON parsing fails: score `0.5`, `correct` iff the
lower-cased raw reply contains `correct` or `right`, feedback = raw reply. -/
def fallbackEvaluation (response : String) : List (String × JVal) :=
  [("score", .num (mkRat 1 2)),
   ("correct", .bool (containsSub (pyLower response.toList) "correct".toList
                      || containsSub (pyLower response.toList) "right".toList)),
   ("feedback", .str response)]

/-- Result of the parsing phase of `TutoringLLM.evaluate_answer`: the
brace-delimited substring is extracted and `json.loads` is attempted; on any
failure the fallback dictionary is used.  (A successfully parsed value is
always a dict here because the extracted substring starts with a brace; the
`nondict` case is included for totality and models the `AttributeError` the
coercion lines would raise on a non-dict.) -/
inductive RawEval where
  | dict (d : List (String × JVal))
  | nondict (v : JVal)

/-- The parsing phase of `TutoringLLM.evaluate_answer` (the try/except around
`re.search` + `json.loads`). -/
def rawEvaluation (response : String) : RawEval :=
  match findJson response.toList with
  | some cand =>
    match jsonLoads cand with
    | some (.obj fields) => .dict fields
    | some v => .nondict v
    | none => .dict (fallbackEvaluation response)
  | none => .dict (fallbackEvaluation response)

/-- `TutoringLLM.evaluate_answer`, given the service's raw reply text (the
service call itself is the caller's input; its failures are separate
`ValueError`s and are not modelled here).  After parsing, the source coerces
`score` with `float(evaluation.get("score", 0.5))` — which raises (`none`)
when the value is present but not coercible — and `correct` with
`bool(evaluation.get("correct", False))`, which never raises. -/
def evaluateAnswerLLM (response : String) : Option (List (String × JVal)) :=
  match rawEvaluation response with
  | .nondict _ => none
  | .dict d =>
    match pyFloat (dictGetD d "score" (.num (mkRat 1 2))) with
    | none => none
    | some s =>
      let d1 := dictSet d "score" (.num s)
      let d2 := dictSet d1 "correct" (.bool (pyBool (dictGetD d1 "correct" (.bool false))))
      some d2

-- ===========================================================================
-- TutoringLLM.decide_next_action (the Action Policy)
-- ===========================================================================

/-- The four recognized action tokens, in the source's enumerated order. -/
def validActions : List String :=
  ["ask_question", "provide_explanation", "follow_up", "end_session"]

/-- The source's token scan: return the first action in the fixed checklist
order that occurs as a substring of the normalized reply. -/
def scanActions : List String → List Char → Option String
  | [], _ => none
  | t :: ts, action =>
    if containsSub action t.toList then some t else scanActions ts action

/-- `accuracy = correct_answers / questions_asked * 100`, `0` when no
question was asked.  Written with `mkRat`; `accuracyPct_eq` below shows this
is the source's float expression read as exact rational arithmetic. -/
def accuracyPct (questionsAsked correctAnswers : Nat) : Rat :=
  if questionsAsked = 0 then 0 else mkRat (100 * correctAnswers) questionsAsked

/-- `TutoringLLM.decide_next_action`.  The input is the outcome of the
generation call: `none` means the call failed, in which case the source
re-raises a `ValueError` (output `none`) — the deterministic fallback is
reached only when the call succeeded but its reply contains no recognized
token. -/
def decideNextActionLLM (serviceReply : Option String) (questionsAsked correctAnswers : Nat)
    (lastAnswerCorrect : Bool) : Option String :=
  match serviceReply with
  | none => none
  | some reply =>
    let action := pyLower (pyStrip reply.toList)
    match scanActions validActions action with
    | some a => some a
    | none =>
      let accuracy := accuracyPct questionsAsked correctAnswers
      if accuracy ≥ 80 ∧ 3 ≤ questionsAsked then some "end_session"
      else if lastAnswerCorrect = false then some "provide_explanation"
      else some "ask_question"

-- ===========================================================================
-- TutoringState and the workflow transition functions
-- ===========================================================================

/-- The `TutoringState` TypedDict.  Conversation turns are (role, content)
pairs; the answer evaluation is the Python dict produced by the evaluator
(empty list = the empty dict `\x7b\x7d`). -/
structure TutoringState where
  student_id : String
  current_topic : String
  conversation_history : List (String × String)
  current_question : String
  student_answer : String
  answer_evaluation : List (String × JVal)
  explanation_provided : Bool
  questions_asked : Nat
  correct_answers : Nat
  topics_covered : List String
  understanding_level : String
  next_action : String
  session_active : Bool

/-- `TutoringWorkflow.create_initial_state`. -/
def createInitialState (studentId topic understandingLevel : String) : TutoringState :=
  { student_id := studentId
    current_topic := topic
    conversation_history := []
    current_question := ""
    student_answer := ""
    answer_evaluation := []
    explanation_provided := false
    questions_asked := 0
    correct_answers := 0
    topics_covered := []
    understanding_level := understandingLevel
    next_action := "ask_question"
    session_active := true }

/-- `TutoringWorkflow.evaluate_answer`, given the evaluation service's raw
reply (prompt construction only feeds the service and is absorbed into that
input).  Returns the state as mutated when control leaves the node and a
flag telling whether it completed without an exception: a failing coercion
in `TutoringLLM.evaluate_answer` raises before any mutation, and a missing
`feedback` key raises a `KeyError` at the feedback print — after the counter
increments but before the history append. -/
def workflowEvaluateAnswer (evalReply : String) (st : TutoringState) :
    TutoringState × Bool :=
  match evaluateAnswerLLM evalReply with
  | none => (st, false)
  | some ev =>
    let st1 : TutoringState :=
      { st with
        answer_evaluation := ev
        questions_asked := st.questions_asked + 1
        correct_answers :=
          st.correct_answers +
            (if pyBool (dictGetD ev "correct" (.bool false)) then 1 else 0) }
    match dictGet ev "feedback" with
    | none => (st1, false)
    | some fb =>
      ({ st1 with
         conversation_history := st1.conversation_history ++ [("assistant", pyStr fb)] },
       true)

/-- The understanding-level adjustment inside `TutoringWorkflow.update_progress`. -/
def updateUnderstanding (lvl : String) (questionsAsked correctAnswers : Nat) : String :=
  let accuracy := accuracyPct questionsAsked correctAnswers
  if accuracy ≥ 80 ∧ 3 ≤ questionsAsked then
    if lvl = "beginner" then "intermediate"
    else if lvl = "intermediate" then "advanced"
    else lvl
  else if accuracy < 50 then
    if lvl = "advanced" then "intermediate"
    else if lvl = "intermediate" then "beginner"
    else lvl
  else lvl

-- ===========================================================================
-- ProgressTracker (the Progress Store)
-- ===========================================================================

/-- One entry of a student's `sessions` list. -/
structure SessionSummary where
  timestamp : String
  topic : String
  questions_asked : Nat
  correct_answers : Nat
  accuracy : Rat

/-- A student's progress record. -/
structure StudentRecord where
  sessions : List SessionSummary
  topics_covered : List String
  total_questions : Nat
  total_correct : Nat
  understanding_levels : List (String × String)

/-- The empty record created on first access. -/
def emptyRecord : StudentRecord :=
  { sessions := []
    topics_covered := []
    total_questions := 0
    total_correct := 0
    understanding_levels := [] }

/-- The whole store: student id to record. -/
def ProgressData : Type := List (String × StudentRecord)

/-- `ProgressTracker.get_student_progress`: look the student up, creating an
empty record in the store on first access. -/
def getStudentProgress (d : ProgressData) (studentId : String) :
    ProgressData × StudentRecord :=
  match dictGet d studentId with
  | some r => (d, r)
  | none => (dictSet d studentId emptyRecord, emptyRecord)

/-- The topics-covered merge loop of `ProgressTracker.update_progress`:
append each topic not already present. -/
def addTopics (acc : List String) (topics : List String) : List String :=
  topics.foldl (fun a t => if t ∈ a then a else a ++ [t]) acc

/-- The record mutation performed by `ProgressTracker.update_progress`. -/
def updateRecord (rec : StudentRecord) (st : TutoringState) (now : String) :
    StudentRecord :=
  { sessions := rec.sessions ++
      [{ timestamp := now
         topic := st.current_topic
         questions_asked := st.questions_asked
         correct_answers := st.correct_answers
         accuracy := accuracyPct st.questions_asked st.correct_answers }]
    topics_covered := addTopics rec.topics_covered st.topics_covered
    total_questions := rec.total_questions + st.questions_asked
    total_correct := rec.total_correct + st.correct_answers
    understanding_levels :=
      dictSet rec.understanding_levels st.current_topic st.understanding_level }

/-- `ProgressTracker.update_progress` (the Progress Store's update
operation); `now` stands for `datetime.now().isoformat()`.  The in-place
mutation of the record object is the write-back `dictSet`.  The trailing
`save_progress` is modelled by `saveProgress` below. -/
def trackerUpdateProgress (d : ProgressData) (st : TutoringState) (now : String) :
    ProgressData :=
  let dr := getStudentProgress d st.student_id
  dictSet dr.1 st.student_id (updateRecord dr.2 st now)

/-- `TutoringWorkflow.update_progress`: forward the pre-adjustment state to
the tracker, then adjust the understanding level. -/
def workflowUpdateProgress (now : String) (d : ProgressData) (st : TutoringState) :
    ProgressData × TutoringState :=
  (trackerUpdateProgress d st now,
   { st with
     understanding_level :=
       updateUnderstanding st.understanding_level st.questions_asked st.correct_answers })

/-- `TutoringWorkflow.decide_next_action`: the last answer's correctness is
read from the stored evaluation (`True` when the evaluation dict is empty),
the policy is consulted, and `end_session` deactivates the session.  A
failed generation call (`decideReply = none`) raises: the state is returned
unchanged with the failure flag. -/
def workflowDecideNextAction (decideReply : Option String) (st : TutoringState) :
    TutoringState × Bool :=
  let lastCorrect : Bool :=
    if st.answer_evaluation.isEmpty then true
    else pyBool (dictGetD st.answer_evaluation "correct" (.bool false))
  match decideNextActionLLM decideReply st.questions_asked st.correct_answers lastCorrect with
  | none => (st, false)
  | some a =>
    let st1 := { st with next_action := a }
    (if a = "end_session" then { st1 with session_active := false } else st1, true)

/-- `TutoringWorkflow.provide_explanation`, given the generation service's
raw reply (which `TutoringLLM.generate_explanation` strips). -/
def workflowProvideExplanation (explainReply : String) (st : TutoringState) :
    TutoringState :=
  let explanation := String.mk (pyStrip explainReply.toList)
  { st with
    explanation_provided := true
    conversation_history :=
      st.conversation_history ++ [("assistant", "Explanation: " ++ explanation)] }

/-- `TutoringWorkflow.generate_question`, given the generation service's raw
reply (which `TutoringLLM.generate_question` strips).  The list of previous
questions is only interpolated into the prompt and is absorbed into the
reply input. -/
def workflowGenerateQuestion (questionReply : String) (st : TutoringState) :
    TutoringState :=
  let question := String.mk (pyStrip questionReply.toList)
  { st with
    current_question := question
    conversation_history := st.conversation_history ++ [("assistant", question)] }

/-- The Progress Store traffic of one completed tutoring session, as the
drivers issue it.  The interactive loop of `main` calls
`workflow.update_progress(state)` — which forwards the state to
`ProgressTracker.update_progress`, appending one session summary — once per
answered question, and after the loop the driver issues one final
`progress_tracker.update_progress(state)` (the HTTP driver does the same:
one tracker update inside every `submit_answer` and one more in
`end_session`).  `turns` holds the session state (with its timestamp) at
each answered turn, `final` the state at session end. -/
def completedSessionUpdates (d : ProgressData) (turns : List (TutoringState × String))
    (final : TutoringState) (nowEnd : String) : ProgressData :=
  trackerUpdateProgress
    (turns.foldl (fun acc p => trackerUpdateProgress acc p.1 p.2) d) final nowEnd

/-- A student record after a run of per-turn tracker updates. -/
def recordAfterTurns (rec : StudentRecord) (turns : List (TutoringState × String)) :
    StudentRecord :=
  turns.foldl (fun r p => updateRecord r p.1 p.2) rec

-- ===========================================================================
-- Persistence (ProgressTracker.load_progress / save_progress)
-- ===========================================================================

/-- What `ProgressTracker.load_progress` sees of the progress file:
`none` — the file does not exist; `some none` — the file exists but opening
or `json.load` raised; `some (some d)` — the file exists and decodes to the
store `d`.  (The JSON (de)serialization of the store is the identity of
this model; round-tripping is not at issue in any claim.) -/
def FileView : Type := Option (Option ProgressData)

/-- `ProgressTracker.load_progress`: a missing file yields the empty store,
and the bare `except:` turns any open/parse failure into the empty store as
well. -/
def loadProgress (file : FileView) : ProgressData :=
  match file with
  | none => []
  | some none => []
  | some (some d) => d

/-- `ProgressTracker.save_progress`: opens the file with mode `w` and writes
the whole in-memory store, so the file afterwards holds exactly the current
store, whatever it held before. -/
def saveProgress (data : ProgressData) : FileView :=
  some (some data)

-- ===========================================================================
-- The REST handler POST /api/session/answer (api.py submit_answer)
-- ===========================================================================

/-- Outcome of a request: a successful `SessionResponse` payload or an
`HTTPException`.  `serverError` stands for the catch-all
`HTTPException(500, "Error processing answer: ...")` whose detail embeds the
underlying exception text (not tracked by the model). -/
inductive ApiOutcome where
  | ok (message : String) (question : Option String)
      (questionsAsked correctAnswers : Nat) (understandingLevel : String)
      (sessionActive : Bool) (isCorrect : Bool) (score : Rat)
      (explanation : Option String) (accuracy : Rat)
  | httpError (status : Nat) (detail : String)
  | serverError

/-- The explanation lookup in the response assembly: the most recent
assistant turn containing `Explanation:`, with every occurrence of
`Explanation: ` deleted. -/
def findExplanation (history : List (String × String)) : Option String :=
  (history.reverse.find? (fun m =>
      m.1 == "assistant" && containsSub m.2.toList "Explanation:".toList)).map
    (fun m => String.mk (pyDeleteSub m.2.toList.length m.2.toList "Explanation: ".toList))

/-- Response assembly of `submit_answer` on the success path. -/
def buildAnswerResponse (st : TutoringState) (nextQuestion : Option String) : ApiOutcome :=
  let ev := st.answer_evaluation
  .ok (pyStr (dictGetD ev "feedback" (.str "")))
    nextQuestion
    st.questions_asked st.correct_answers st.understanding_level st.session_active
    (pyBool (dictGetD ev "correct" (.bool false)))
    (match dictGet ev "score" with
     | some (.num q) => q
     | some v => (if pyBool v then 1 else 0)  -- unreachable after coercion
     | none => 0)
    (if st.explanation_provided then findExplanation st.conversation_history else none)
    (accuracyPct st.questions_asked st.correct_answers)

/-- `submit_answer` of api.py.  The session registry and the progress store
are passed and returned explicitly (they are module-level dicts in the
source; in-place mutation of the session dict is modelled by writing the
mutated state back even when an exception is converted to an HTTP error).
The four generation-service interactions of one request are explicit
inputs: the evaluation reply, the two possible decision replies and the
next-question reply (`none` for a decision reply = that generation call
failed). -/
def apiSubmitAnswer (sessions : List (String × TutoringState)) (d : ProgressData)
    (sessionId answer : String)
    (evalReply : String) (decideReply1 : Option String) (explainReply : String)
    (decideReply2 : Option String) (questionReply : String) (now : String) :
    List (String × TutoringState) × ProgressData × ApiOutcome :=
  match dictGet sessions sessionId with
  | none => (sessions, d, .httpError 404 "Session not found")
  | some st0 =>
    if st0.session_active = false then
      (sessions, d, .httpError 400 "Session is no longer active")
    else
      let st := { st0 with
                  student_answer := answer
                  conversation_history := st0.conversation_history ++ [("user", answer)]
                  answer_evaluation := [] }
      match workflowEvaluateAnswer evalReply st with
      | (st1, false) => (dictSet sessions sessionId st1, d, .serverError)
      | (st1, true) =>
        let dst := workflowUpdateProgress now d st1
        match workflowDecideNextAction decideReply1 dst.2 with
        | (st2, false) => (dictSet sessions sessionId st2, dst.1, .serverError)
        | (st2, true) =>
          let afterExplain : TutoringState × Bool :=
            if st2.next_action = "provide_explanation" then
              workflowDecideNextAction decideReply2 (workflowProvideExplanation explainReply st2)
            else (st2, true)
          match afterExplain with
          | (st3, false) => (dictSet sessions sessionId st3, dst.1, .serverError)
          | (st3, true) =>
            let stq : TutoringState × Option String :=
              if st3.session_active = true ∧
                  (st3.next_action = "ask_question" ∨ st3.next_action = "follow_up") then
                let st4 := workflowGenerateQuestion questionReply st3
                ({ st4 with student_answer := "", current_question := "" },
                 some st4.current_question)
              else (st3, none)
            (dictSet sessions sessionId stq.1, dst.1, buildAnswerResponse stq.1 stq.2)

/-- One promotion step on the ordered scale of the specification
(beginner → intermediate → advanced, advanced stays advanced); stated from
the claim's words, to be compared with `updateUnderstanding`. -/
def specPromote (lvl : String) : String :=
  if lvl = "beginner" then "intermediate"
  else if lvl = "intermediate" then "advanced"
  else lvl

/-- One demotion step on the ordered scale of the specification
(advanced → intermediate → beginner, beginner stays beginner); stated from
the claim's words. -/
def specDemote (lvl : String) : String :=
  if lvl = "advanced" then "intermediate"
  else if lvl = "intermediate" then "beginner"
  else lvl

/-- Position of a level on the ordered scale beginner < intermediate <
advanced. -/
def levelRank (lvl : String) : Nat :=
  if lvl = "beginner" then 0 else if lvl = "intermediate" then 1 else 2

-- ===========================================================================
-- Helper lemmas
-- ===========================================================================

/-- `accuracyPct` is the source's float expression
`correct_answers / questions_asked * 100` (`0` when nothing was asked), read
as exact rational arithmetic. -/
theorem accuracyPct_eq (q c : Nat) :
    accuracyPct q c = if q = 0 then 0 else (c : Rat) / (q : Rat) * 100 := by
  unfold accuracyPct
  split
  · rfl
  · rw [Rat.mkRat_eq_div]
    push_cast
    ring

/-- The percent comparison of the source agrees with the fractional
comparison of the specification (`accuracy ≥ 0.80`), division by zero being
`0` on both readings. -/
theorem cond80_iff (q c : Nat) :
    (accuracyPct q c ≥ 80 ∧ 3 ≤ q) ↔ ((c : Rat) / (q : Rat) ≥ 4 / 5 ∧ 3 ≤ q) := by
  rw [accuracyPct_eq]
  by_cases hq : q = 0
  · subst hq
    simp only [if_pos rfl, Nat.cast_zero, div_zero]
    constructor <;> rintro ⟨h1, h2⟩ <;> omega
  · rw [if_neg hq]
    have hqpos : (0 : Rat) < (q : Rat) := by
      exact_mod_cast Nat.pos_of_ne_zero hq
    constructor <;> rintro ⟨h1, h2⟩ <;> refine ⟨?_, h2⟩ <;> nlinarith [h1, hqpos]

/-- Same for the demotion threshold `accuracy < 0.50`.  (In `Rat`, division
by zero is `0`, so `(c : Rat) / q` is itself the claim's
"`correct_answers / questions_asked`, taken as `0` when
`questions_asked = 0`".) -/
theorem cond50_iff (q c : Nat) :
    (accuracyPct q c < 50) ↔ ((c : Rat) / (q : Rat) < 1 / 2) := by
  rw [accuracyPct_eq]
  by_cases hq : q = 0
  · subst hq
    simp only [if_pos rfl, Nat.cast_zero, div_zero]
    norm_num
  · rw [if_neg hq]
    have hqpos : (0 : Rat) < (q : Rat) := by
      exact_mod_cast Nat.pos_of_ne_zero hq
    constructor <;> intro h1 <;> nlinarith [h1, hqpos]

/-- Looking up the key just set. -/
theorem dictGet_dictSet_self {α : Type} (d : List (String × α)) (k : String) (v : α) :
    dictGet (dictSet d k v) k = some v := by
  induction d with
  | nil => simp [dictSet, dictGet]
  | cons hd tl ih =>
    obtain ⟨k0, v0⟩ := hd
    by_cases h : k0 = k
    · subst h
      simp [dictSet, dictGet]
    · simp [dictSet, dictGet, h, ih]


/-- Setting one key leaves every other key's binding unchanged. -/
theorem dictGet_dictSet_ne {α : Type} (d : List (String × α)) (k k' : String) (v : α)
    (h : k' ≠ k) : dictGet (dictSet d k v) k' = dictGet d k' := by
  induction d with
  | nil =>
    simp only [dictSet, dictGet]
    rw [if_neg (Ne.symm h)]
  | cons hd tl ih =>
    obtain ⟨k0, v0⟩ := hd
    by_cases h0 : k0 = k
    · subst h0
      simp only [dictSet, if_pos rfl, dictGet]
      rw [if_neg (Ne.symm h), if_neg (Ne.symm h)]
    · simp only [dictSet, if_neg h0, dictGet]
      by_cases h1 : k0 = k'
      · rw [if_pos h1, if_pos h1]
      · rw [if_neg h1, if_neg h1, ih]

/-- Every key of the updated dictionary is an old key or the key set. -/
theorem mem_dictKeys_dictSet {α : Type} (d : List (String × α)) (k : String) (v : α)
    (u : String) : u ∈ dictKeys (dictSet d k v) ↔ u ∈ dictKeys d ∨ u = k := by
  induction d with
  | nil => simp [dictSet, dictKeys]
  | cons hd tl ih =>
    obtain ⟨k0, v0⟩ := hd
    by_cases h0 : k0 = k
    · subst h0
      simp only [dictSet, dictKeys] at *
      simp [List.mem_cons]
      tauto
    · simp only [dictSet, dictKeys] at *
      simp only [if_neg h0, List.map_cons, List.mem_cons]
      rw [ih]
      tauto

/-- `dictSet` keeps the key set's freedom from duplicates. -/
theorem dictKeys_dictSet_nodup {α : Type} (d : List (String × α)) (k : String) (v : α)
    (h : (dictKeys d).Nodup) : (dictKeys (dictSet d k v)).Nodup := by
  induction d with
  | nil => simp [dictSet, dictKeys]
  | cons hd tl ih =>
    obtain ⟨k0, v0⟩ := hd
    simp only [dictKeys, List.map_cons, List.nodup_cons] at h
    by_cases h0 : k0 = k
    · subst h0
      simpa [dictSet, dictKeys, List.nodup_cons] using h
    · simp only [dictSet, dictKeys] at *
      simp only [if_neg h0, List.map_cons, List.nodup_cons]
      refine ⟨?_, ih h.2⟩
      intro hmem
      rcases (mem_dictKeys_dictSet tl k v k0).mp hmem with hu | hu
      · exact h.1 hu
      · exact h0 hu

/-- The token scan of `decide_next_action` is first-match search over the
checklist. -/
theorem scanActions_eq_find (ts : List String) (action : List Char) :
    scanActions ts action = ts.find? (fun t => containsSub action t.toList) := by
  induction ts with
  | nil => rfl
  | cons t ts ih =>
    simp only [scanActions, List.find?]
    cases h : containsSub action t.toList
    · simp [ih]
    · simp

/-- Membership after the topics-covered merge loop. -/
theorem mem_addTopics (ts acc : List String) (u : String) :
    u ∈ addTopics acc ts ↔ u ∈ acc ∨ u ∈ ts := by
  induction ts generalizing acc with
  | nil => simp [addTopics]
  | cons t ts ih =>
    by_cases h : t ∈ acc
    · rw [show addTopics acc (t :: ts) = addTopics acc ts by simp [addTopics, h]]
      rw [ih]
      simp only [List.mem_cons]
      constructor
      · rintro (hu | hu)
        · exact Or.inl hu
        · exact Or.inr (Or.inr hu)
      · rintro (hu | rfl | hu)
        · exact Or.inl hu
        · exact Or.inl h
        · exact Or.inr hu
    · rw [show addTopics acc (t :: ts) = addTopics (acc ++ [t]) ts by simp [addTopics, h]]
      rw [ih]
      simp only [List.mem_append, List.mem_cons, List.mem_singleton]
      tauto

/-- What the topics-covered merge loop appends after the existing topics:
only topics not already present, none of them twice. -/
theorem addTopics_spec (ts acc : List String) :
    ∃ new, addTopics acc ts = acc ++ new ∧ (∀ t ∈ new, t ∉ acc) ∧ new.Nodup := by
  induction ts generalizing acc with
  | nil => exact ⟨[], by simp [addTopics], by simp, by simp⟩
  | cons t ts ih =>
    by_cases h : t ∈ acc
    · obtain ⟨new, h1, h2, h3⟩ := ih acc
      exact ⟨new, by simpa [addTopics, h] using h1, h2, h3⟩
    · obtain ⟨new, h1, h2, h3⟩ := ih (acc ++ [t])
      refine ⟨t :: new, ?_, ?_, ?_⟩
      · rw [show acc ++ t :: new = (acc ++ [t]) ++ new by simp]
        simpa [addTopics, h] using h1
      · intro u hu hacc
        rcases List.mem_cons.mp hu with rfl | hu
        · exact h hacc
        · exact h2 u hu (List.mem_append_left _ hacc)
      · exact List.nodup_cons.mpr ⟨fun hmem => h2 t hmem (by simp), h3⟩

/-- The merge loop keeps the topic list free of duplicates. -/
theorem addTopics_nodup (ts acc : List String) (h : acc.Nodup) :
    (addTopics acc ts).Nodup := by
  obtain ⟨new, h1, h2, h3⟩ := addTopics_spec ts acc
  rw [h1]
  exact List.Nodup.append h h3 (fun a ha hb => h2 a hb ha)

-- ===========================================================================
-- Claim C2 — Action Policy deterministic fallback
-- ===========================================================================

/-- Claim C2, counterexample.  The claim asserts that when the service call
fails, `decide` still deterministically returns an action (`end_session` at
`questions_asked = 3, correct_answers = 3, last_answer_correct = true`).
The source instead re-raises a `ValueError` out of every `except` branch of
`decide_next_action`: the deterministic fallback is reached only when the
call succeeded but no token matched.  A failed call (`none`) therefore
produces an error, not `end_session`. -/
theorem decideNextAction_service_failure_raises :
    decideNextActionLLM none 3 3 true = none ∧
    decideNextActionLLM none 3 3 true ≠ some "end_session" := by
  refine ⟨rfl, ?_⟩
  intro h
  simp only [decideNextActionLLM] at h
  exact Option.noConfusion h

/-- Claim C2 (amended): whenever the service call succeeds but its reply
contains none of the four action tokens, `decide` deterministically returns
`end_session` if `accuracy ≥ 0.80` and `questions_asked ≥ 3` (with
`accuracy = correct_answers / questions_asked`, `0` when
`questions_asked = 0` — which in `Rat` is division's own convention),
otherwise `provide_explanation` if the last answer was incorrect, otherwise
`ask_question`, for all non-negative counters with
`correct_answers ≤ questions_asked`; when the service call itself fails,
`decide` raises instead of returning a fallback action. -/
theorem decideNextAction_fallback_policy :
    (∀ (reply : String) (q c : Nat) (last : Bool), c ≤ q →
        (∀ t ∈ validActions,
          containsSub (pyLower (pyStrip reply.toList)) t.toList = false) →
        decideNextActionLLM (some reply) q c last =
          some (if (c : Rat) / (q : Rat) ≥ 4 / 5 ∧ 3 ≤ q then "end_session"
                else if last = false then "provide_explanation"
                else "ask_question")) ∧
    (∀ (q c : Nat) (last : Bool), decideNextActionLLM none q c last = none) := by
  constructor
  · intro reply q c last hcq hno
    have hscan : scanActions validActions (pyLower (pyStrip reply.toList)) = none := by
      rw [scanActions_eq_find]
      apply List.find?_eq_none.mpr
      intro t ht
      simp only [Bool.not_eq_true]
      exact hno t ht
    simp only [decideNextActionLLM, hscan]
    by_cases h80 : (c : Rat) / (q : Rat) ≥ 4 / 5 ∧ 3 ≤ q
    · rw [if_pos ((cond80_iff q c).mpr h80), if_pos h80]
    · rw [if_neg (fun hc => h80 ((cond80_iff q c).mp hc)), if_neg h80]
      cases last
      · rw [if_pos rfl, if_pos rfl]
      · rw [if_neg (by simp), if_neg (by simp)]
  · intro q c last
    rfl

/-- Claim C2, witness: the three rows of the specification's fallback table,
obtained from `decideNextAction_fallback_policy` at an unrecognized reply. -/
theorem decideNextAction_fallback_policy_witness :
    decideNextActionLLM (some "please continue") 3 3 true = some "end_session" ∧
    decideNextActionLLM (some "please continue") 2 0 false = some "provide_explanation" ∧
    decideNextActionLLM (some "please continue") 1 1 true = some "ask_question" := by
  have h1 := decideNextAction_fallback_policy.1 "please continue" 3 3 true
    (by decide) (by decide)
  have h2 := decideNextAction_fallback_policy.1 "please continue" 2 0 false
    (by decide) (by decide)
  have h3 := decideNextAction_fallback_policy.1 "please continue" 1 1 true
    (by decide) (by decide)
  refine ⟨?_, ?_, ?_⟩
  · rw [h1, if_pos (by norm_num)]
  · rw [h2, if_neg (by norm_num), if_pos rfl]
  · rw [h3, if_neg (by norm_num), if_neg (by simp)]

-- ===========================================================================
-- Claim C5 — Action Policy token matching
-- ===========================================================================

/-- Claim C5: when the lower-cased, trimmed service reply contains at least
one of the four action tokens as a substring, `decide` returns the first
matching token in the fixed checklist order `ask_question,
provide_explanation, follow_up, end_session` (first-match search over the
checklist, regardless of the tokens' positions in the reply), and for every
successful reply `decide` returns one of the four actions. -/
theorem decideNextAction_token_matching :
    (∀ (reply : String) (q c : Nat) (last : Bool) (t : String),
        validActions.find?
            (fun u => containsSub (pyLower (pyStrip reply.toList)) u.toList) = some t →
        decideNextActionLLM (some reply) q c last = some t) ∧
    (∀ (reply : String) (q c : Nat) (last : Bool),
        ∃ a, decideNextActionLLM (some reply) q c last = some a ∧ a ∈ validActions) := by
  constructor
  · intro reply q c last t hfind
    have hscan : scanActions validActions (pyLower (pyStrip reply.toList)) = some t := by
      rw [scanActions_eq_find]
      exact hfind
    simp only [decideNextActionLLM, hscan]
  · intro reply q c last
    cases hscan : scanActions validActions (pyLower (pyStrip reply.toList)) with
    | some a =>
      refine ⟨a, ?_, ?_⟩
      · simp only [decideNextActionLLM, hscan]
      · have hfind := scanActions_eq_find validActions (pyLower (pyStrip reply.toList))
        rw [hscan] at hfind
        exact List.mem_of_find?_eq_some hfind.symm
    | none =>
      simp only [decideNextActionLLM, hscan]
      by_cases h80 : accuracyPct q c ≥ 80 ∧ 3 ≤ q
      · exact ⟨"end_session", by rw [if_pos h80], by decide⟩
      · by_cases hl : last = false
        · exact ⟨"provide_explanation", by rw [if_neg h80, if_pos hl], by decide⟩
        · exact ⟨"ask_question", by rw [if_neg h80, if_neg hl], by decide⟩

/-- Claim C5, witness: in a reply where `end_session` occurs before
`ask_question` in the text, the checklist order still selects
`ask_question`. -/
theorem decideNextAction_token_matching_witness :
    decideNextActionLLM (some "end_session, unless you prefer ask_question") 1 0 true =
      some "ask_question" :=
  decideNextAction_token_matching.1 "end_session, unless you prefer ask_question"
    1 0 true "ask_question" (by decide)

-- ===========================================================================
-- Claim C3 — understanding-level adjustment
-- ===========================================================================


/-- Claim C3: `update_progress` changes the understanding level by at most
one step on the ordered scale, exactly as specified: promotion by one level
when `accuracy ≥ 0.80` and `questions_asked ≥ 3`, demotion by one level when
`accuracy < 0.50`, otherwise no change — for every session state (level
ranging over the three-point scale).  `accuracy` is
`correct_answers / questions_asked`, `0` when `questions_asked = 0` (which
is `Rat` division's own convention). -/
theorem updateUnderstanding_one_step (lvl : String)
    (hlvl : lvl = "beginner" ∨ lvl = "intermediate" ∨ lvl = "advanced") (q c : Nat) :
    (((c : Rat) / (q : Rat) ≥ 4 / 5 ∧ 3 ≤ q) →
        updateUnderstanding lvl q c = specPromote lvl) ∧
    (((c : Rat) / (q : Rat) < 1 / 2) →
        updateUnderstanding lvl q c = specDemote lvl) ∧
    ((¬((c : Rat) / (q : Rat) ≥ 4 / 5 ∧ 3 ≤ q) ∧ ¬((c : Rat) / (q : Rat) < 1 / 2)) →
        updateUnderstanding lvl q c = lvl) ∧
    (levelRank (updateUnderstanding lvl q c) ≤ levelRank lvl + 1 ∧
        levelRank lvl ≤ levelRank (updateUnderstanding lvl q c) + 1) := by
  have hP : ((c : Rat) / (q : Rat) ≥ 4 / 5 ∧ 3 ≤ q) →
      updateUnderstanding lvl q c = specPromote lvl := by
    intro hc
    have hcode : accuracyPct q c ≥ 80 ∧ 3 ≤ q := (cond80_iff q c).mpr hc
    unfold updateUnderstanding specPromote
    rw [if_pos hcode]
  have hD : ((c : Rat) / (q : Rat) < 1 / 2) →
      updateUnderstanding lvl q c = specDemote lvl := by
    intro hc
    have hcode : accuracyPct q c < 50 := (cond50_iff q c).mpr hc
    have hnot : ¬(accuracyPct q c ≥ 80 ∧ 3 ≤ q) := by
      rintro ⟨h1, _⟩
      have : (80 : Rat) ≤ accuracyPct q c := h1
      linarith
    unfold updateUnderstanding specDemote
    rw [if_neg hnot, if_pos hcode]
  have hN : (¬((c : Rat) / (q : Rat) ≥ 4 / 5 ∧ 3 ≤ q) ∧ ¬((c : Rat) / (q : Rat) < 1 / 2)) →
      updateUnderstanding lvl q c = lvl := by
    rintro ⟨h1, h2⟩
    unfold updateUnderstanding
    rw [if_neg (fun hc => h1 ((cond80_iff q c).mp hc)),
        if_neg (fun hc => h2 ((cond50_iff q c).mp hc))]
  refine ⟨hP, hD, hN, ?_⟩
  by_cases h80 : (c : Rat) / (q : Rat) ≥ 4 / 5 ∧ 3 ≤ q
  · rw [hP h80]
    rcases hlvl with rfl | rfl | rfl <;> decide
  · by_cases h50 : (c : Rat) / (q : Rat) < 1 / 2
    · rw [hD h50]
      rcases hlvl with rfl | rfl | rfl <;> decide
    · rw [hN ⟨h80, h50⟩]
      exact ⟨Nat.le_add_right _ 1, Nat.le_add_right _ 1⟩

/-- Claim C3, witness: a beginner with three questions all answered
correctly is promoted to intermediate, an advanced student at accuracy `0`
is demoted to intermediate, and a beginner at accuracy `0` stays a beginner. -/
theorem updateUnderstanding_one_step_witness :
    updateUnderstanding "beginner" 3 3 = "intermediate" ∧
    updateUnderstanding "advanced" 2 0 = "intermediate" ∧
    updateUnderstanding "beginner" 2 0 = "beginner" := by
  have h1 := (updateUnderstanding_one_step "beginner" (Or.inl rfl) 3 3).1 (by norm_num)
  have h2 := (updateUnderstanding_one_step "advanced" (Or.inr (Or.inr rfl)) 2 0).2.1
    (by norm_num)
  have h3 := (updateUnderstanding_one_step "beginner" (Or.inl rfl) 2 0).2.1 (by norm_num)
  exact ⟨h1.trans (by decide), h2.trans (by decide), h3.trans (by decide)⟩

-- ===========================================================================
-- Claim C1 — Answer Evaluator fallback
-- ===========================================================================

/-- Claim C1, counterexample.  The claim's own example asserts that the
reply `Not quite right`, which contains no JSON, evaluates to
`correct = false`; but `right` is a substring of the lower-cased reply, so
the source's fallback sets `correct = true`. -/
theorem evaluateAnswer_fallback_counterexample :
    findJson "Not quite right".toList = none ∧
    evaluateAnswerLLM "Not quite right" =
      some [("score", .num (mkRat 1 2)), ("correct", .bool true),
            ("feedback", .str "Not quite right")] ∧
    dictGet ((evaluateAnswerLLM "Not quite right").getD []) "correct" =
      some (.bool true) := by
  refine ⟨by decide, rfl, rfl⟩

/-- Claim C1 (amended): for every service reply in which the evaluator finds
no brace-delimited JSON substring, or in which parsing the found substring
fails, `evaluate` returns an evaluation with score `0.5`, feedback equal to
the raw reply text, and `correct = true` iff the lower-cased reply contains
the substring `correct` or the substring `right` — so `That's correct!`
yields `correct = true`, and `Not quite right` also yields `correct = true`,
because it contains `right`. -/
theorem evaluateAnswer_fallback_rule (response : String)
    (h : findJson response.toList = none ∨
         ∃ cand, findJson response.toList = some cand ∧ jsonLoads cand = none) :
    ∃ d, evaluateAnswerLLM response = some d ∧
      dictGet d "score" = some (.num (mkRat 1 2)) ∧
      dictGet d "feedback" = some (.str response) ∧
      dictGet d "correct" = some (.bool
        (containsSub (pyLower response.toList) "correct".toList
          || containsSub (pyLower response.toList) "right".toList)) := by
  have hraw : rawEvaluation response = .dict (fallbackEvaluation response) := by
    rcases h with h | ⟨cand, hc, hp⟩
    · simp only [rawEvaluation, h]
    · simp only [rawEvaluation, hc, hp]
  refine ⟨fallbackEvaluation response, ?_, rfl, rfl, rfl⟩
  simp only [evaluateAnswerLLM, hraw]
  rfl

/-- Claim C1, witness: the rule applied to the JSON-free reply
`That's correct!` produces score `0.5` and `correct = true`. -/
theorem evaluateAnswer_fallback_rule_witness :
    findJson "That's correct!".toList = none ∧
    ∃ d, evaluateAnswerLLM "That's correct!" = some d ∧
      dictGet d "score" = some (.num (mkRat 1 2)) ∧
      dictGet d "correct" = some (.bool true) := by
  have hj : findJson "That's correct!".toList = none := by decide
  obtain ⟨d, h1, h2, h3, h4⟩ := evaluateAnswer_fallback_rule "That's correct!" (Or.inl hj)
  refine ⟨hj, d, h1, h2, ?_⟩
  rw [h4]
  rw [show (containsSub (pyLower "That's correct!".toList) "correct".toList
      || containsSub (pyLower "That's correct!".toList) "right".toList) = true by decide]

-- ===========================================================================
-- Claim C7 — score/correct coercion after parsing
-- ===========================================================================

/-- Claim C7, counterexample.  The claim asserts `evaluate` never fails on a
reply whose JSON carries a malformed `score`; but the coercion
`float(evaluation.get("score", 0.5))` sits outside the try/except, so on the
reply `\x7b"score": "abc"\x7d` the extracted JSON parses, `float("abc")`
raises a `ValueError`, and `evaluate` fails. -/
theorem evaluateAnswer_malformed_score_raises :
    evaluateAnswerLLM "\x7b\"score\": \"abc\"\x7d" = none ∧
    rawEvaluation "\x7b\"score\": \"abc\"\x7d" = .dict [("score", .str "abc")] := by
  exact ⟨rfl, rfl⟩

/-- Claim C7 (amended): after parsing (JSON or fallback), `evaluate` returns
a dictionary whose `score` is a real number and whose `correct` is a
boolean; `score` defaults to `0.5` when missing and `correct` to `false`
when missing.  However, when the parsed dictionary carries a `score` value
that cannot be coerced to a number (e.g. a non-numeric string), `evaluate`
raises instead of defaulting — the coercion lies outside the parser's
try/except. -/
theorem evaluateAnswer_coercion (response : String) :
    (∀ d, evaluateAnswerLLM response = some d →
      (∃ q, dictGet d "score" = some (.num q)) ∧
      (∃ b, dictGet d "correct" = some (.bool b))) ∧
    (∀ fields, rawEvaluation response = .dict fields →
      (dictGet fields "score" = none →
        ∃ d, evaluateAnswerLLM response = some d ∧
          dictGet d "score" = some (.num (mkRat 1 2))) ∧
      (∀ v, dictGet fields "score" = some v → pyFloat v = none →
        evaluateAnswerLLM response = none) ∧
      (dictGet fields "correct" = none →
        ∀ d, evaluateAnswerLLM response = some d →
          dictGet d "correct" = some (.bool false))) := by
  constructor
  · intro d hd
    cases hraw : rawEvaluation response with
    | dict fields =>
      rcases hf : pyFloat (dictGetD fields "score" (.num (mkRat 1 2))) with _ | s
      · simp only [evaluateAnswerLLM, hraw, hf] at hd
        exact Option.noConfusion hd
      · simp only [evaluateAnswerLLM, hraw, hf, Option.some.injEq] at hd
        subst hd
        constructor
        · exact ⟨s, by rw [dictGet_dictSet_ne _ _ _ _ (by decide), dictGet_dictSet_self]⟩
        · exact ⟨_, dictGet_dictSet_self _ _ _⟩
    | nondict v =>
      simp only [evaluateAnswerLLM, hraw] at hd
      exact Option.noConfusion hd
  · intro fields hraw
    refine ⟨?_, ?_, ?_⟩
    · intro hmiss
      have hgd : dictGetD fields "score" (.num (mkRat 1 2)) = .num (mkRat 1 2) := by
        simp [dictGetD, hmiss]
      refine ⟨dictSet (dictSet fields "score" (.num (mkRat 1 2))) "correct"
          (.bool (pyBool (dictGetD (dictSet fields "score" (.num (mkRat 1 2)))
            "correct" (.bool false)))), ?_, ?_⟩
      · simp only [evaluateAnswerLLM, hraw, hgd, pyFloat]
      · rw [dictGet_dictSet_ne _ _ _ _ (by decide), dictGet_dictSet_self]
    · intro v hv hfloat
      have hgd : dictGetD fields "score" (.num (mkRat 1 2)) = v := by
        simp [dictGetD, hv]
      simp only [evaluateAnswerLLM, hraw, hgd, hfloat]
    · intro hmiss d hd
      rcases hf : pyFloat (dictGetD fields "score" (.num (mkRat 1 2))) with _ | s
      · simp only [evaluateAnswerLLM, hraw, hf] at hd
        exact Option.noConfusion hd
      · simp only [evaluateAnswerLLM, hraw, hf, Option.some.injEq] at hd
        subst hd
        have h2 : dictGet (dictSet fields "score" (.num s)) "correct" = none := by
          rw [dictGet_dictSet_ne _ _ _ _ (by decide), hmiss]
        rw [dictGet_dictSet_self]
        rw [show dictGetD (dictSet fields "score" (.num s)) "correct" (.bool false) =
            .bool false by simp [dictGetD, h2]]
        rfl

/-- Claim C7, witness: on the reply `\x7b"correct": true\x7d`, whose JSON
lacks a `score`, the coercion rule yields score `0.5`; the dictionary also
carries a boolean `correct`. -/
theorem evaluateAnswer_coercion_witness :
    ∃ d, evaluateAnswerLLM "\x7b\"correct\": true\x7d" = some d ∧
      dictGet d "score" = some (.num (mkRat 1 2)) ∧
      (∃ b, dictGet d "correct" = some (.bool b)) := by
  have h := (evaluateAnswer_coercion "\x7b\"correct\": true\x7d").2
    [("correct", .bool true)] rfl
  obtain ⟨d, h1, h2⟩ := h.1 rfl
  obtain ⟨-, hb⟩ := (evaluateAnswer_coercion "\x7b\"correct\": true\x7d").1 d h1
  exact ⟨d, h1, h2, hb⟩

-- ===========================================================================
-- Claim C4 — correct_answers ≤ questions_asked is preserved by evaluate
-- ===========================================================================

/-- Claim C4: for every session state with
`correct_answers ≤ questions_asked`, the state after an `evaluate` call
still satisfies the invariant: when the evaluator returns, `evaluate`
increments `questions_asked` by exactly `1`, stores the evaluation, and
increments `correct_answers` by `1` exactly when the stored evaluation's
`correct` field is true; and the initial state starts at `(0, 0)`. -/
theorem evaluateStep_preserves_invariant (st : TutoringState) (reply : String)
    (h : st.correct_answers ≤ st.questions_asked) :
    ((workflowEvaluateAnswer reply st).1.correct_answers ≤
        (workflowEvaluateAnswer reply st).1.questions_asked) ∧
    (∀ ev, evaluateAnswerLLM reply = some ev →
      (workflowEvaluateAnswer reply st).1.questions_asked = st.questions_asked + 1 ∧
      (workflowEvaluateAnswer reply st).1.answer_evaluation = ev ∧
      ((workflowEvaluateAnswer reply st).1.correct_answers = st.correct_answers + 1 ↔
        pyBool (dictGetD ev "correct" (.bool false)) = true) ∧
      (pyBool (dictGetD ev "correct" (.bool false)) = false →
        (workflowEvaluateAnswer reply st).1.correct_answers = st.correct_answers)) ∧
    (∀ sid topic lvl, (createInitialState sid topic lvl).questions_asked = 0 ∧
        (createInitialState sid topic lvl).correct_answers = 0) := by
  cases heval : evaluateAnswerLLM reply with
  | none =>
    refine ⟨?_, ?_, ?_⟩
    · simp only [workflowEvaluateAnswer, heval]
      exact h
    · intro ev hev
      exact Option.noConfusion hev
    · intro sid topic lvl
      exact ⟨rfl, rfl⟩
  | some ev0 =>
    have hcount :
        (workflowEvaluateAnswer reply st).1.questions_asked = st.questions_asked + 1 ∧
        (workflowEvaluateAnswer reply st).1.answer_evaluation = ev0 ∧
        (workflowEvaluateAnswer reply st).1.correct_answers = st.correct_answers +
          (if pyBool (dictGetD ev0 "correct" (.bool false)) then 1 else 0) := by
      cases hfb : dictGet ev0 "feedback" with
      | none => simp [workflowEvaluateAnswer, heval, hfb]
      | some fb => simp [workflowEvaluateAnswer, heval, hfb]
    obtain ⟨hq, hev, hc⟩ := hcount
    refine ⟨?_, ?_, ?_⟩
    · rw [hq, hc]
      have hle : (if pyBool (dictGetD ev0 "correct" (.bool false)) = true
          then 1 else 0) ≤ 1 := by
        split <;> omega
      omega
    · intro ev hev2
      rw [Option.some.injEq] at hev2
      subst hev2
      refine ⟨hq, hev, ?_, ?_⟩
      · rw [hc]
        cases hb : pyBool (dictGetD ev0 "correct" (.bool false)) <;> simp
      · intro hfalse
        rw [hc, hfalse]
        simp
    · intro sid topic lvl
      exact ⟨rfl, rfl⟩

/-- Claim C4, witness: starting from the initial state `(0, 0)` and a reply
the evaluator marks correct, `evaluate` moves the counters to `(1, 1)` and
the invariant holds. -/
theorem evaluateStep_preserves_invariant_witness :
    ((workflowEvaluateAnswer "That's correct!"
        (createInitialState "s1" "Recursion" "beginner")).1.correct_answers ≤
      (workflowEvaluateAnswer "That's correct!"
        (createInitialState "s1" "Recursion" "beginner")).1.questions_asked) ∧
    (workflowEvaluateAnswer "That's correct!"
        (createInitialState "s1" "Recursion" "beginner")).1.questions_asked = 1 := by
  have h := evaluateStep_preserves_invariant
    (createInitialState "s1" "Recursion" "beginner") "That's correct!" (by decide)
  refine ⟨h.1, ?_⟩
  have h2 := (h.2.1 [("score", .num (mkRat 1 2)), ("correct", .bool true),
    ("feedback", .str "That's correct!")] rfl).1
  rw [h2]
  rfl

-- ===========================================================================
-- Claim C8 — submitting an answer on an inactive session
-- ===========================================================================

/-- Claim C8: for every stored session whose active flag is false, the
answer-submission handler fails with HTTP 400 `Session is no longer active`
and leaves the session registry and the progress store completely
unchanged. -/
theorem submitAnswer_inactive_session (sessions : List (String × TutoringState))
    (d : ProgressData) (sid answer evalReply explainReply questionReply now : String)
    (decideReply1 decideReply2 : Option String) (st : TutoringState)
    (hlook : dictGet sessions sid = some st)
    (hinactive : st.session_active = false) :
    apiSubmitAnswer sessions d sid answer evalReply decideReply1 explainReply
        decideReply2 questionReply now =
      (sessions, d, .httpError 400 "Session is no longer active") := by
  simp only [apiSubmitAnswer, hlook, hinactive]
  simp

/-- Claim C8, witness: a concrete inactive session is rejected with the 400
error, the registry and store untouched. -/
theorem submitAnswer_inactive_session_witness :
    apiSubmitAnswer
        [("sess1", { createInitialState "s1" "Recursion" "beginner" with
                     session_active := false })]
        [] "sess1" "my answer" "r1" (some "r2") "r3" (some "r4") "r5" "t0" =
      ([("sess1", { createInitialState "s1" "Recursion" "beginner" with
                    session_active := false })],
       [], .httpError 400 "Session is no longer active") :=
  submitAnswer_inactive_session
    [("sess1", { createInitialState "s1" "Recursion" "beginner" with
                 session_active := false })]
    [] "sess1" "my answer" "r1" "r3" "r5" "t0" (some "r2") (some "r4")
    { createInitialState "s1" "Recursion" "beginner" with session_active := false }
    rfl rfl

-- ===========================================================================
-- Claim C9 — Progress Store update invariants
-- ===========================================================================

/-- Claim C9: every Progress Store update appends exactly one session
summary while leaving all previously stored summaries unchanged, adds to the
topics-covered list only topics not already present (so it never acquires
duplicates), and overwrites the topic-to-level mapping entry for the current
topic with the current level while leaving every other topic's entry — and
the mapping's one-value-per-topic shape — intact. -/
theorem progressUpdate_record_invariants (rec : StudentRecord) (st : TutoringState)
    (now : String) :
    (updateRecord rec st now).sessions =
      rec.sessions ++
        [{ timestamp := now
           topic := st.current_topic
           questions_asked := st.questions_asked
           correct_answers := st.correct_answers
           accuracy := accuracyPct st.questions_asked st.correct_answers }] ∧
    (∃ new, (updateRecord rec st now).topics_covered = rec.topics_covered ++ new ∧
      (∀ t ∈ new, t ∉ rec.topics_covered) ∧ new.Nodup) ∧
    (rec.topics_covered.Nodup → (updateRecord rec st now).topics_covered.Nodup) ∧
    (∀ t, t ∈ (updateRecord rec st now).topics_covered ↔
      t ∈ rec.topics_covered ∨ t ∈ st.topics_covered) ∧
    dictGet (updateRecord rec st now).understanding_levels st.current_topic =
      some st.understanding_level ∧
    (∀ t, t ≠ st.current_topic →
      dictGet (updateRecord rec st now).understanding_levels t =
        dictGet rec.understanding_levels t) ∧
    ((dictKeys rec.understanding_levels).Nodup →
      (dictKeys (updateRecord rec st now).understanding_levels).Nodup) := by
  refine ⟨rfl, ?_, ?_, ?_, ?_, ?_, ?_⟩
  · exact addTopics_spec st.topics_covered rec.topics_covered
  · intro hnodup
    exact addTopics_nodup st.topics_covered rec.topics_covered hnodup
  · intro t
    exact mem_addTopics st.topics_covered rec.topics_covered t
  · exact dictGet_dictSet_self rec.understanding_levels st.current_topic
      st.understanding_level
  · intro t ht
    exact dictGet_dictSet_ne rec.understanding_levels st.current_topic t
      st.understanding_level ht
  · intro hnodup
    exact dictKeys_dictSet_nodup rec.understanding_levels st.current_topic
      st.understanding_level hnodup

/-- Claim C9, witness: updating a record that already covers topic `A` at
level `beginner` with a session on topic `B` at level `intermediate` keeps
the `A` entries, appends one summary, and writes `B` without duplicating
topics. -/
theorem progressUpdate_record_invariants_witness :
    (updateRecord
        { sessions := [], topics_covered := ["A"], total_questions := 0,
          total_correct := 0, understanding_levels := [("A", "beginner")] }
        { createInitialState "s1" "B" "intermediate" with
          topics_covered := ["A", "B"], questions_asked := 2, correct_answers := 1 }
        "t0").sessions.length = 1 ∧
    dictGet (updateRecord
        { sessions := [], topics_covered := ["A"], total_questions := 0,
          total_correct := 0, understanding_levels := [("A", "beginner")] }
        { createInitialState "s1" "B" "intermediate" with
          topics_covered := ["A", "B"], questions_asked := 2, correct_answers := 1 }
        "t0").understanding_levels "B" = some "intermediate" ∧
    dictGet (updateRecord
        { sessions := [], topics_covered := ["A"], total_questions := 0,
          total_correct := 0, understanding_levels := [("A", "beginner")] }
        { createInitialState "s1" "B" "intermediate" with
          topics_covered := ["A", "B"], questions_asked := 2, correct_answers := 1 }
        "t0").understanding_levels "A" = some "beginner" ∧
    (updateRecord
        { sessions := [], topics_covered := ["A"], total_questions := 0,
          total_correct := 0, understanding_levels := [("A", "beginner")] }
        { createInitialState "s1" "B" "intermediate" with
          topics_covered := ["A", "B"], questions_asked := 2, correct_answers := 1 }
        "t0").topics_covered.Nodup := by
  have h := progressUpdate_record_invariants
    { sessions := [], topics_covered := ["A"], total_questions := 0,
      total_correct := 0, understanding_levels := [("A", "beginner")] }
    { createInitialState "s1" "B" "intermediate" with
      topics_covered := ["A", "B"], questions_asked := 2, correct_answers := 1 }
    "t0"
  refine ⟨?_, ?_, ?_, ?_⟩
  · rw [h.1]
    rfl
  · exact h.2.2.2.2.1
  · have := h.2.2.2.2.2.1 "A" (by decide)
    rw [this]
    rfl
  · exact h.2.2.1 (by decide)

-- ===========================================================================
-- Claim C6 — two completed sessions, one student
-- ===========================================================================

/-- A tracker update for a student already alone in the store rewrites that
student's record in place. -/
theorem trackerUpdateProgress_singleton (sid : String) (rec : StudentRecord)
    (st : TutoringState) (now : String) (h : st.student_id = sid) :
    trackerUpdateProgress [(sid, rec)] st now = [(sid, updateRecord rec st now)] := by
  simp [trackerUpdateProgress, getStudentProgress, dictGet, dictSet, h]

/-- A tracker update on the empty store creates the student's record. -/
theorem trackerUpdateProgress_nil (st : TutoringState) (now : String) :
    trackerUpdateProgress [] st now =
      [(st.student_id, updateRecord emptyRecord st now)] := by
  simp [trackerUpdateProgress, getStudentProgress, dictGet, dictSet]

/-- Per-turn tracker updates for one student keep the store a singleton and
fold into the record. -/
theorem foldTurns_singleton (turns : List (TutoringState × String)) (sid : String)
    (rec : StudentRecord) (h : ∀ p ∈ turns, p.1.student_id = sid) :
    turns.foldl (fun acc p => trackerUpdateProgress acc p.1 p.2) [(sid, rec)] =
      [(sid, recordAfterTurns rec turns)] := by
  induction turns generalizing rec with
  | nil => rfl
  | cons t ts ih =>
    rw [List.foldl_cons,
      trackerUpdateProgress_singleton sid rec t.1 t.2 (h t (List.mem_cons_self t ts)),
      ih (updateRecord rec t.1 t.2) (fun p hp => h p (List.mem_cons_of_mem t hp))]
    rfl

/-- Each tracker update appends exactly one session summary. -/
theorem updateRecord_sessions_length (rec : StudentRecord) (st : TutoringState)
    (now : String) :
    (updateRecord rec st now).sessions.length = rec.sessions.length + 1 := by
  simp [updateRecord]

/-- Summary count after a run of per-turn updates. -/
theorem recordAfterTurns_sessions_length (turns : List (TutoringState × String))
    (rec : StudentRecord) :
    (recordAfterTurns rec turns).sessions.length =
      rec.sessions.length + turns.length := by
  induction turns generalizing rec with
  | nil => rfl
  | cons t ts ih =>
    show (recordAfterTurns (updateRecord rec t.1 t.2) ts).sessions.length =
      rec.sessions.length + (t :: ts).length
    rw [ih, updateRecord_sessions_length]
    simp only [List.length_cons]
    omega

/-- Per-turn updates keep the topic list free of duplicates. -/
theorem recordAfterTurns_topics_nodup (turns : List (TutoringState × String))
    (rec : StudentRecord) (h : rec.topics_covered.Nodup) :
    (recordAfterTurns rec turns).topics_covered.Nodup := by
  induction turns generalizing rec with
  | nil => exact h
  | cons t ts ih => exact ih (updateRecord rec t.1 t.2) (addTopics_nodup _ _ h)

/-- One completed session, starting from a store holding only this student. -/
theorem completedSession_singleton (sid : String) (rec : StudentRecord)
    (turns : List (TutoringState × String)) (f : TutoringState) (e : String)
    (h : ∀ p ∈ turns, p.1.student_id = sid) (hf : f.student_id = sid) :
    completedSessionUpdates [(sid, rec)] turns f e =
      [(sid, updateRecord (recordAfterTurns rec turns) f e)] := by
  unfold completedSessionUpdates
  rw [foldTurns_singleton turns sid rec h, trackerUpdateProgress_singleton sid _ f e hf]

/-- One completed session with `k` answered questions, starting from the
empty store, leaves the student alone in the store with `k + 1` session
summaries and a duplicate-free topic list. -/
theorem completedSession_from_empty (sid : String)
    (turns : List (TutoringState × String)) (f : TutoringState) (e : String)
    (h : ∀ p ∈ turns, p.1.student_id = sid) (hf : f.student_id = sid) :
    ∃ rec, completedSessionUpdates [] turns f e = [(sid, rec)] ∧
      rec.sessions.length = turns.length + 1 ∧ rec.topics_covered.Nodup := by
  cases turns with
  | nil =>
    refine ⟨updateRecord emptyRecord f e, ?_, ?_, ?_⟩
    · unfold completedSessionUpdates
      rw [List.foldl_nil, trackerUpdateProgress_nil, hf]
    · rw [updateRecord_sessions_length]
      rfl
    · exact addTopics_nodup _ _ (by simp [emptyRecord])
  | cons t ts =>
    have ht : t.1.student_id = sid := h t (List.mem_cons_self t ts)
    refine ⟨updateRecord (recordAfterTurns (updateRecord emptyRecord t.1 t.2) ts) f e,
      ?_, ?_, ?_⟩
    · unfold completedSessionUpdates
      rw [List.foldl_cons, trackerUpdateProgress_nil, ht,
        foldTurns_singleton ts sid _ (fun p hp => h p (List.mem_cons_of_mem t hp)),
        trackerUpdateProgress_singleton sid _ f e hf]
    · rw [updateRecord_sessions_length, recordAfterTurns_sessions_length,
        updateRecord_sessions_length]
      simp only [List.length_cons]
      have : emptyRecord.sessions.length = 0 := rfl
      omega
    · exact addTopics_nodup _ _ (recordAfterTurns_topics_nodup ts _
        (addTopics_nodup _ _ (by simp [emptyRecord])))

/-- Claim C6, counterexample.  The claim asserts that after two completed
tutoring sessions the student's record shows exactly two session summary
entries.  But the drivers call the Progress Store's update once per answered
question and once more at session end (`main`: inside the interactive loop
and again after it; the HTTP driver likewise in `submit_answer` and
`end_session`), so two completed sessions with one answered question each
leave four summaries, not two.  The merged topic list is still
duplicate-free. -/
theorem twoCompletedSessions_counterexample :
    ∃ rec, dictGet (completedSessionUpdates (completedSessionUpdates []
        [({ createInitialState "s1" "Recursion" "beginner" with
            topics_covered := ["Recursion"], questions_asked := 1,
            correct_answers := 1 }, "t1")]
        { createInitialState "s1" "Recursion" "beginner" with
          topics_covered := ["Recursion"], questions_asked := 1,
          correct_answers := 1 } "t2")
        [({ createInitialState "s1" "Sorting" "beginner" with
            topics_covered := ["Recursion", "Sorting"], questions_asked := 1,
            correct_answers := 0 }, "t3")]
        { createInitialState "s1" "Sorting" "beginner" with
          topics_covered := ["Recursion", "Sorting"], questions_asked := 1,
          correct_answers := 0 } "t4") "s1" = some rec ∧
      rec.sessions.length = 4 ∧ rec.sessions.length ≠ 2 ∧
      rec.topics_covered.Nodup := by
  refine ⟨_, rfl, rfl, by decide, by decide⟩

/-- Claim C6 (amended): after two completed tutoring sessions for the same
student, starting from an empty store, the student's progress record holds
one session summary per answered question plus one per session end —
`(k1 + 1) + (k2 + 1)` entries for sessions with `k1` and `k2` answered
questions, so exactly two only when no question was answered — and the
record's merged topic set contains no duplicate topics. -/
theorem twoCompletedSessions_summary_count (sid : String)
    (turns1 turns2 : List (TutoringState × String)) (f1 f2 : TutoringState)
    (e1 e2 : String)
    (h1 : ∀ p ∈ turns1, p.1.student_id = sid)
    (h2 : ∀ p ∈ turns2, p.1.student_id = sid)
    (hf1 : f1.student_id = sid) (hf2 : f2.student_id = sid) :
    ∃ rec, dictGet (completedSessionUpdates
        (completedSessionUpdates [] turns1 f1 e1) turns2 f2 e2) sid = some rec ∧
      rec.sessions.length = (turns1.length + 1) + (turns2.length + 1) ∧
      rec.topics_covered.Nodup := by
  obtain ⟨rec1, hs1, hlen1, hnd1⟩ := completedSession_from_empty sid turns1 f1 e1 h1 hf1
  rw [hs1, completedSession_singleton sid rec1 turns2 f2 e2 h2 hf2]
  refine ⟨updateRecord (recordAfterTurns rec1 turns2) f2 e2, by simp [dictGet], ?_, ?_⟩
  · rw [updateRecord_sessions_length, recordAfterTurns_sessions_length, hlen1]
    omega
  · exact addTopics_nodup _ _ (recordAfterTurns_topics_nodup turns2 _ hnd1)

/-- Claim C6, witness: a first session with one answered question and a
second with none (quit before answering) give `(1+1) + (0+1) = 3` summaries
for student `s1`, with a duplicate-free merged topic list. -/
theorem twoCompletedSessions_summary_count_witness :
    ∃ rec, dictGet (completedSessionUpdates (completedSessionUpdates []
        [({ createInitialState "s1" "Recursion" "beginner" with
            topics_covered := ["Recursion"], questions_asked := 1,
            correct_answers := 1 }, "t1")]
        { createInitialState "s1" "Recursion" "beginner" with
          topics_covered := ["Recursion"], questions_asked := 1,
          correct_answers := 1 } "t2")
        [] { createInitialState "s1" "Sorting" "beginner" with
             topics_covered := ["Recursion", "Sorting"] } "t3") "s1" = some rec ∧
      rec.sessions.length = 3 ∧ rec.topics_covered.Nodup := by
  have h := twoCompletedSessions_summary_count "s1"
    [({ createInitialState "s1" "Recursion" "beginner" with
        topics_covered := ["Recursion"], questions_asked := 1,
        correct_answers := 1 }, "t1")]
    []
    { createInitialState "s1" "Recursion" "beginner" with
      topics_covered := ["Recursion"], questions_asked := 1, correct_answers := 1 }
    { createInitialState "s1" "Sorting" "beginner" with
      topics_covered := ["Recursion", "Sorting"] }
    "t2" "t3" (by decide) (by decide) rfl rfl
  exact h

-- ===========================================================================
-- Claim C10 — corrupted progress file
-- ===========================================================================

/-- Claim C10: if the progress file exists but opening or JSON-parsing it
raises, `load_progress` silently returns the empty store — indistinguishable
from a missing file — and the next save rewrites the file from the in-memory
store alone, so after one update for one student the persisted store has no
entry for any other student: all previously persisted progress is gone. -/
theorem corruptedProgressFile_resets_store (st : TutoringState) (now : String)
    (other : String) (hother : other ≠ st.student_id) :
    loadProgress (some none) = ([] : ProgressData) ∧
    loadProgress (some none) = loadProgress none ∧
    saveProgress (trackerUpdateProgress (loadProgress (some none)) st now) =
      some (some (trackerUpdateProgress [] st now)) ∧
    dictGet (trackerUpdateProgress (loadProgress (some none)) st now) other = none := by
  refine ⟨rfl, rfl, rfl, ?_⟩
  simp [trackerUpdateProgress, getStudentProgress, loadProgress, dictGet, dictSet,
    Ne.symm hother]

/-- Claim C10, witness: after loading a corrupted file and updating progress
for student `s1`, the persisted store holds nothing for student `s2`. -/
theorem corruptedProgressFile_resets_store_witness :
    dictGet (trackerUpdateProgress (loadProgress (some none))
      (createInitialState "s1" "Recursion" "beginner") "t0") "s2" = none :=
  (corruptedProgressFile_resets_store (createInitialState "s1" "Recursion" "beginner")
    "t0" "s2" (by decide)).2.2.2
